import Mathlib

/-!
Verification of the credential-pool rate limiter, clock/closure rules,
fetch scheduler and rolling store of the market-fetching service.

The Lean definitions below are a shallow embedding of the Python sources:
  src/config.py, src/api_key_manager.py, src/candle_fetcher.py,
  src/scheduler.py, src/data_storage.py.
Wall-clock instants read via `time.time()` are modelled as rationals
(seconds); calendar dates read via `datetime.date()` are modelled as
integer day ordinals; candle datetimes are modelled as integer seconds
(UTC).  Each operation that in Python reads the clock takes the clock
values as explicit arguments.  Python code that can raise (e.g. `min([])`
on an empty pool) is modelled with `Option`.
-/

/-! ### Configuration (src/config.py) -/

/-- Constant `TWELVEDATA_DAILY_LIMIT` from src/config.py line 30. -/
def TWELVEDATA_DAILY_LIMIT : Nat := 800

/-- Constant `TWELVEDATA_MINUTE_LIMIT` from src/config.py line 31. -/
def TWELVEDATA_MINUTE_LIMIT : Nat := 8

/-- Constant `TIMEFRAMES` from src/config.py line 9. -/
def TIMEFRAMES : List String := ["1min", "5min", "15min", "1h", "4h"]

/-- Lookup `ROLLING_LIMITS.get(timeframe, 100)` from src/config.py lines 21-27:
the per-granularity rolling-history capacity, defaulting to 100. -/
def ROLLING_LIMITS_get (timeframe : String) : Nat :=
  if timeframe = "1min" then 500
  else if timeframe = "5min" then 300
  else if timeframe = "15min" then 200
  else if timeframe = "1h" then 120
  else if timeframe = "4h" then 100
  else 100

/-! ### Clock / closure rules (src/candle_fetcher.py) -/

/-- Models `is_candle_closed(timeframe, dt)` from src/candle_fetcher.py lines 21-37.
The Python function only reads `dt.minute` and `dt.hour`; we pass those two
components of the UTC instant explicitly. -/
def is_candle_closed (timeframe : String) (hour minute : Nat) : Bool :=
  if timeframe = "1min" then true
  else if timeframe = "5min" then minute % 5 == 0
  else if timeframe = "15min" then minute % 15 == 0
  else if timeframe = "1h" then minute == 0
  else if timeframe = "4h" then hour % 4 == 0 && minute == 0
  else false

/-- The `intervals` dictionary lookup `intervals.get(timeframe)` inside
`_is_confirmed_closed`, src/candle_fetcher.py lines 57-60 (minutes per
candle).  Python's falsy test `if not minutes` rejects both a missing key
and a zero value; the literal dictionary contains no zero, so the lookup
result being `none` is the only rejecting case. -/
def intervals_get (timeframe : String) : Option Nat :=
  if timeframe = "1min" then some 1
  else if timeframe = "5min" then some 5
  else if timeframe = "15min" then some 15
  else if timeframe = "1h" then some 60
  else if timeframe = "4h" then some 240
  else none

/-- Models `_is_confirmed_closed(candle_ts, now, timeframe)` from
src/candle_fetcher.py lines 51-68.  Instants are integer seconds (UTC);
`timedelta(minutes=m)` is `60 * m` seconds. -/
def _is_confirmed_closed (candle_ts now : Int) (timeframe : String) : Bool :=
  match intervals_get timeframe with
  | none => false
  | some minutes => decide (now ≥ candle_ts + 60 * minutes)

/-- The duration, in seconds, of one candle of the given granularity
(known granularities only), i.e. `60 *` the `intervals` entry. -/
def granularityDurationSeconds (timeframe : String) : Option Int :=
  (intervals_get timeframe).map (fun m => (60 * m : Int))

/-! ### Credential pool (src/api_key_manager.py) -/

/-- The per-key usage record held in `APIKeyManager.key_stats`
(src/api_key_manager.py lines 24-29). -/
structure KeyStats where
  requests_today : Nat
  requests_this_minute : Nat
  last_used_timestamp : Rat
  minute_window_start : Rat
deriving Repr, DecidableEq

/-- The stats record of a freshly loaded key (src/api_key_manager.py
lines 24-29): all counters and timestamps zero. -/
def freshKeyStats : KeyStats :=
  { requests_today := 0, requests_this_minute := 0,
    last_used_timestamp := 0, minute_window_start := 0 }

/-- The `APIKeyManager` state: `self.keys` together with `self.key_stats`
(the two are kept in lockstep by `_load_keys`, which also guarantees the
keys are pairwise distinct), plus `self.last_daily_reset`.  We represent
the ordered key list with its stats as one association list. -/
structure APIKeyManager where
  entries : List (String × KeyStats)
  last_daily_reset : Int
deriving Repr, DecidableEq

/-- The key list `self.keys` (first components of `entries`). -/
def APIKeyManager.keyList (m : APIKeyManager) : List String :=
  m.entries.map Prod.fst

/-- Since `_load_keys` inserts a key only if it is not already present, so the
key list is duplicate-free.  All pool states reachable in the program
satisfy this. -/
def APIKeyManager.keysNodup (m : APIKeyManager) : Prop :=
  m.keyList.Nodup

/-- Models `_reset_daily_counters_if_needed` from src/api_key_manager.py
lines 32-38: at the first pool operation of a new UTC calendar day, zero
every key's daily counter and record the new day. -/
def _reset_daily_counters_if_needed (m : APIKeyManager) (now_date : Int) :
    APIKeyManager :=
  if m.last_daily_reset < now_date then
    { entries := m.entries.map (fun p => (p.1, { p.2 with requests_today := 0 })),
      last_daily_reset := now_date }
  else m

/-- Models `_reset_minute_counter_if_needed` from src/api_key_manager.py
lines 40-46, acting on one key's stats: if the window was never opened
(`minute_window_start == 0`) or has been open for at least 60 seconds,
zero the per-minute counter and restart the window at `now`. -/
def _reset_minute_counter_if_needed (now : Rat) (s : KeyStats) : KeyStats :=
  if s.minute_window_start = 0 ∨ now - s.minute_window_start ≥ 60 then
    { s with requests_this_minute := 0, minute_window_start := now }
  else s

/-- The combined reset pass both `get_available_key` and
`reserve_key_for_request` perform before examining eligibility:
the daily reset followed by the per-key minute-window reset (the per-key
resets are independent, so resetting all keys up front is equivalent to
Python's resets inside the loop over keys). -/
def applyResets (m : APIKeyManager) (now_date : Int) (now : Rat) :
    APIKeyManager :=
  let m1 := _reset_daily_counters_if_needed m now_date
  { m1 with
    entries := m1.entries.map (fun p => (p.1, _reset_minute_counter_if_needed now p.2)) }

/-- Python's `list.sort(key=lambda x: x[1])` followed by `[0]`:
a stable sort by the numeric second component and then the first element.
`List.insertionSort` with `≤` on the sort key is stable, so its head is
the first listed pair attaining the minimal second component, exactly as
in Python. -/
def sortBySndHead (l : List (String × Nat)) : Option (String × Nat) :=
  (l.insertionSort (fun a b => a.2 ≤ b.2)).head?

/-- The eligibility test both pool operations apply
(src/api_key_manager.py lines 58-61 and 119-120): strictly under both
the daily and the per-minute limit. -/
def eligibleStats (s : KeyStats) : Prop :=
  s.requests_today < TWELVEDATA_DAILY_LIMIT ∧
  s.requests_this_minute < TWELVEDATA_MINUTE_LIMIT

instance (s : KeyStats) : Decidable (eligibleStats s) :=
  inferInstanceAs (Decidable (_ ∧ _))

/-- The `available_keys` list of `get_available_key`
(src/api_key_manager.py lines 53-63): eligible keys paired with their
`requests_today`. -/
def availableKeysToday (l : List (String × KeyStats)) : List (String × Nat) :=
  l.filterMap (fun p =>
    if eligibleStats p.2 then some (p.1, p.2.requests_today) else none)

/-- The `available_keys` list of `reserve_key_for_request`
(src/api_key_manager.py lines 116-121): eligible keys paired with their
`requests_this_minute`. -/
def availableKeysMinute (l : List (String × KeyStats)) : List (String × Nat) :=
  l.filterMap (fun p =>
    if eligibleStats p.2 then some (p.1, p.2.requests_this_minute) else none)

/-- Models `get_available_key` from src/api_key_manager.py lines 48-70.
Returns the updated manager (the resets mutate `self`) together with the
chosen key, `none` when every key is at a limit.  The eligible keys are
paired with `requests_today` and the least-used (daily) one is returned. -/
def get_available_key (m : APIKeyManager) (now_date : Int) (now : Rat) :
    APIKeyManager × Option String :=
  let m2 := applyResets m now_date now
  (m2, (sortBySndHead (availableKeysToday m2.entries)).map Prod.fst)

/-- The per-entry update of `record_usage`
(src/api_key_manager.py lines 75-83): on the matching key, open the
minute window if it was never opened, then increment both counters and
set `last_used_timestamp`. -/
def recordUsageUpdate (now : Rat) (key : String) (p : String × KeyStats) :
    String × KeyStats :=
  if p.1 = key then
    let s1 := if p.2.minute_window_start = 0
              then { p.2 with minute_window_start := now } else p.2
    (p.1, { s1 with
            requests_today := s1.requests_today + 1,
            requests_this_minute := s1.requests_this_minute + 1,
            last_used_timestamp := now })
  else p

/-- Models `record_usage(key)` from src/api_key_manager.py lines 72-83.
(The Python guard `if key in self.key_stats` is subsumed: entries whose
key differs are untouched, and an unknown key touches nothing.) -/
def record_usage (m : APIKeyManager) (now : Rat) (key : String) :
    APIKeyManager :=
  { m with entries := m.entries.map (recordUsageUpdate now key) }

/-- The `times_to_wait` list of `reserve_key_for_request`
(src/api_key_manager.py lines 129-132): per key, the residual time until
its minute window closes. -/
def timesToWait (l : List (String × KeyStats)) (now : Rat) : List Rat :=
  l.map (fun p => 60 - (now - p.2.minute_window_start))

/-- Models `reserve_key_for_request` from src/api_key_manager.py lines 100-134.
Returns the updated manager and `(key, 0)` when a key is under both
limits (the one with least usage in the current minute), otherwise
`(none, wait)` with `wait = max(0.5, min(times_to_wait))`.
With an empty key list Python's `min([])` raises, modelled as `none`. -/
def reserve_key_for_request (m : APIKeyManager) (now_date : Int) (now : Rat) :
    Option (APIKeyManager × (Option String × Rat)) :=
  let m2 := applyResets m now_date now
  match sortBySndHead (availableKeysMinute m2.entries) with
  | some pick => some (m2, (some pick.1, 0))
  | none =>
    match (timesToWait m2.entries now).min? with
    | none => none
    | some t => some (m2, (none, max (1/2 : Rat) t))

/-- Total daily usage recorded across the pool (the sum of
`requests_today` over all keys). -/
def totalRequestsToday (m : APIKeyManager) : Nat :=
  (m.entries.map (fun p => p.2.requests_today)).sum

/-! ### Rolling store (src/data_storage.py) -/

/-- One candle observation as the provider returns it: the `"datetime"`
field used for ordering and deduplication, plus the remaining OHLC(V)
payload, kept opaque. -/
structure Candle where
  datetime : Int
  payload : String
deriving Repr, DecidableEq

/-- Models `collections.deque(maxlen=n).append(c)`: append on the right and drop
from the left whatever exceeds the capacity. -/
def dequeAppend (maxlen : Nat) (q : List Candle) (c : Candle) : List Candle :=
  (q ++ [c]).drop ((q.length + 1) - maxlen)

/-- Body of `DataStorage.add_single_candle` (guarded part) acting on one
(pair, timeframe) stream, src/data_storage.py lines 43-54: skip the
candle if its timestamp is already present, otherwise append to the
bounded deque. -/
def addSingleToStream (maxlen : Nat) (storage : List Candle) (c : Candle) :
    List Candle :=
  let existing_timestamps := storage.map (fun x => x.datetime)
  if c.datetime ∈ existing_timestamps then storage
  else dequeAppend maxlen storage c

/-- The `DataStorage.data` table: one bounded stream per configured
(pair, timeframe) key (src/data_storage.py lines 16-22). -/
structure DataStorage where
  data : List ((String × String) × List Candle)
deriving Repr, DecidableEq

/-- Models `DataStorage.add_single_candle(pair, timeframe, candle)` from
src/data_storage.py lines 43-54: a no-op for an unconfigured
(pair, timeframe); for a configured one, dedup by timestamp and append
into the stream whose capacity is `ROLLING_LIMITS.get(timeframe, 100)`. -/
def DataStorage.add_single_candle (st : DataStorage)
    (pair timeframe : String) (c : Candle) : DataStorage :=
  { data := st.data.map (fun e =>
      if e.1 = (pair, timeframe)
      then (e.1, addSingleToStream (ROLLING_LIMITS_get timeframe) e.2 c)
      else e) }

/-! ### Fetch primitive and scheduler steps
(src/candle_fetcher.py, src/scheduler.py) -/

/-- Constant `TIMEFRAME_PRIORITY` from src/scheduler.py line 15. -/
def TIMEFRAME_PRIORITY : List String := ["1min", "5min", "15min", "1h", "4h"]

/-- The sort key of src/scheduler.py lines 78-82:
`TIMEFRAME_PRIORITY.index(tf) if tf in TIMEFRAME_PRIORITY else len(TIMEFRAME_PRIORITY)`.
`List.indexOf` returns the length when the element is absent, which is
exactly Python's fallback. -/
def priorityIndex (tf : String) : Nat := TIMEFRAME_PRIORITY.indexOf tf

/-- Models `sorted(timeframes, key=priorityIndex)` (stable) from
src/scheduler.py lines 78-82, modelled by the stable `insertionSort`. -/
def sortByPriority (tfs : List String) : List String :=
  tfs.insertionSort (fun a b => priorityIndex a ≤ priorityIndex b)

/-- Models `fetch_candles(pair, timeframe, outputsize)` from
src/candle_fetcher.py lines 70-124, restricted to its effect on the
credential pool and its return value.  The provider interaction is the
`response` argument: `none` models a transport failure, a non-200 status,
a payload without `"values"`, or a raised exception; `some values` models
a parsed `data["values"]` list.  The function picks its own key with
`get_available_key` (the resets mutate the pool), filters the values
through `_is_confirmed_closed` at datetime-clock `now_dt`, truncates to
`outputsize`, and records usage on its key only when the confirmed list
is non-empty. -/
def fetch_candles (m : APIKeyManager) (now_date : Int) (now : Rat)
    (now_dt : Int) (timeframe : String) (outputsize : Nat)
    (response : Option (List Candle)) :
    APIKeyManager × Option (List Candle) :=
  match get_available_key m now_date now with
  | (m1, none) => (m1, none)
  | (m1, some api_key) =>
    match response with
    | none => (m1, none)
    | some values =>
      let confirmed_candles :=
        (values.filter (fun c => _is_confirmed_closed c.datetime now_dt timeframe)).take
          outputsize
      if confirmed_candles = [] then (m1, none)
      else (record_usage m1 now api_key, some confirmed_candles)

/-- An observable action of a scheduler loop body: a cooperative sleep,
a live-mode skip of one granularity, or a completed fetch attempt with
the reserved key and whether the fetched candle reached the store. -/
inductive SchedEvent where
  | sleep (seconds : Rat)
  | skip (timeframe : String)
  | fetched (timeframe : String) (reserved_key : String) (stored : Bool)
deriving Repr, DecidableEq

/-- One iteration of the `for timeframe in sorted_tfs` body of
`CandleScheduler._fetch_pair_at_offset`, src/scheduler.py lines 84-94:
reserve a key; if none is granted, skip this granularity (the returned
wait time is discarded and no sleep happens); otherwise run
`fetch_candles` (which picks its own key), store the first candle when
one came back, and record usage on the reserved key unconditionally. -/
def live_tf_step (m : APIKeyManager) (now_date : Int) (now : Rat)
    (now_dt : Int) (timeframe : String) (response : Option (List Candle)) :
    Option (APIKeyManager × SchedEvent) :=
  match reserve_key_for_request m now_date now with
  | none => none
  | some (m1, (none, _)) => some (m1, SchedEvent.skip timeframe)
  | some (m1, (some key, _)) =>
    let r := fetch_candles m1 now_date now now_dt timeframe 1 response
    some (record_usage r.1 now key,
          SchedEvent.fetched timeframe key r.2.isSome)

/-- The whole `for timeframe in sorted_tfs` loop of
`_fetch_pair_at_offset` (src/scheduler.py lines 84-94), run over an
already priority-sorted granularity list, returning the final pool state
and the ordered trace of events.  The preceding `await asyncio.sleep(delay)`
time-slicing delay (line 75) happens before this loop and is not part of
it. -/
def fetch_pair_loop (now_date : Int) (now : Rat) (now_dt : Int)
    (response : String → Option (List Candle)) :
    List String → APIKeyManager → Option (APIKeyManager × List SchedEvent)
  | [], m => some (m, [])
  | tf :: rest, m =>
    match live_tf_step m now_date now now_dt tf (response tf) with
    | none => none
    | some (m1, ev) =>
      match fetch_pair_loop now_date now now_dt response rest m1 with
      | none => none
      | some (m2, evs) => some (m2, ev :: evs)

/-- Models the per-granularity work of `_fetch_pair_at_offset`: the loop above over
the priority-sorted due granularities. -/
def fetch_pair_at_offset (m : APIKeyManager) (now_date : Int) (now : Rat)
    (now_dt : Int) (timeframes : List String)
    (response : String → Option (List Candle)) :
    Option (APIKeyManager × List SchedEvent) :=
  fetch_pair_loop now_date now now_dt response (sortByPriority timeframes) m

/-- Outcome of one iteration of the `while True` body of
`CandleScheduler.initialize_data` for one (pair, timeframe),
src/scheduler.py lines 49-63: either the pair/timeframe is done (candles
loaded into the store and usage recorded on the reserved key), or the
loop sleeps and retries. -/
inductive BootstrapOutcome where
  | done (m : APIKeyManager) (loaded : List Candle)
  | retry (m : APIKeyManager) (ev : SchedEvent)
deriving Repr, DecidableEq

/-- One iteration of the bootstrap `while True` body
(src/scheduler.py lines 49-63): reserve; with no key, sleep for the
returned wait and retry; with a key, run `fetch_initial_history` =
`fetch_candles` at `outputsize = ROLLING_LIMITS.get(timeframe, 100)`
(src/candle_fetcher.py lines 126-129); on candles, record usage on the
reserved key and break; otherwise sleep 10 seconds and retry. -/
def bootstrap_attempt (m : APIKeyManager) (now_date : Int) (now : Rat)
    (now_dt : Int) (timeframe : String) (response : Option (List Candle)) :
    Option BootstrapOutcome :=
  match reserve_key_for_request m now_date now with
  | none => none
  | some (m1, (none, wait_time)) =>
    some (BootstrapOutcome.retry m1 (SchedEvent.sleep wait_time))
  | some (m1, (some key, _)) =>
    let r := fetch_candles m1 now_date now now_dt timeframe
      (ROLLING_LIMITS_get timeframe) response
    match r.2 with
    | some cs => some (BootstrapOutcome.done (record_usage r.1 now key) cs)
    | none => some (BootstrapOutcome.retry r.1 (SchedEvent.sleep 10))

/-- The granularity an event belongs to (`none` for a sleep). -/
def SchedEvent.timeframeOf : SchedEvent → Option String
  | SchedEvent.sleep _ => none
  | SchedEvent.skip tf => some tf
  | SchedEvent.fetched tf _ _ => some tf

/-- Whether an event is a cooperative sleep. -/
def SchedEvent.isSleep : SchedEvent → Prop
  | SchedEvent.sleep _ => True
  | _ => False

instance (e : SchedEvent) : Decidable e.isSleep := by
  cases e <;> simp [SchedEvent.isSleep] <;> infer_instance

/-- Runs `n` consecutive calls of `reserve_key_for_request` against the pool,
all at the same clock readings (an end-to-end scenario driver): returns
the granted keys in order together with the final pool state. -/
def reserveRun (now_date : Int) (now : Rat) :
    Nat → APIKeyManager → Option (List (Option String) × APIKeyManager)
  | 0, m => some ([], m)
  | n + 1, m =>
    match reserve_key_for_request m now_date now with
    | none => none
    | some (m1, (k, _)) =>
      match reserveRun now_date now n m1 with
      | none => none
      | some (ks, m2) => some (k :: ks, m2)

/-! ### Concrete states used in scenarios -/

/-- A fresh two-key pool: keys `"A"` and `"B"` as `_load_keys` creates
them, daily reset marker at day 0. -/
def poolAB : APIKeyManager :=
  ⟨[("A", freshKeyStats), ("B", freshKeyStats)], 0⟩

/-- The pool `poolAB` after one pool operation at `now = 100`: both
minute windows opened at 100, no usage recorded. -/
def poolAB100 : APIKeyManager :=
  ⟨[("A", ⟨0, 0, 0, 100⟩), ("B", ⟨0, 0, 0, 100⟩)], 0⟩

/-- State of `poolAB100` after `n` usages of `"A"` recorded at `now = 100`. -/
def poolABused (n : Nat) : APIKeyManager :=
  ⟨[("A", ⟨n, n, 100, 100⟩), ("B", ⟨0, 0, 0, 100⟩)], 0⟩

/-- A single-key pool with window open at 100 and no usage recorded. -/
def poolA100 : APIKeyManager :=
  ⟨[("A", ⟨0, 0, 0, 100⟩)], 0⟩

/-- A two-key pool in which the per-minute least-used key (picked by
`reserve_key_for_request`) and the daily least-used key (picked by
`get_available_key`) differ: `"A"` has 5 daily requests but a quiet
minute, `"B"` has 3 requests this minute but a quiet day. -/
def poolDiff : APIKeyManager :=
  ⟨[("A", ⟨5, 0, 0, 100⟩), ("B", ⟨0, 3, 0, 100⟩)], 0⟩

def poolStale : APIKeyManager := ⟨[("A", ⟨0, 5, 0, 39⟩)], 0⟩

def poolExhausted : APIKeyManager :=
  ⟨[("A", ⟨10, 8, 100, 100⟩), ("B", ⟨20, 8, 100, 100⟩)], 0⟩

def poolA : APIKeyManager := ⟨[("A", freshKeyStats)], 0⟩

def c0 : Candle := ⟨0, "x"⟩

/-- A one-stream store for concrete scenarios: the configured pair
"EURUSD" at timeframe "1min" with an empty stream. -/
def storeE : DataStorage := ⟨[(("EURUSD", "1min"), [])]⟩

/-! ### Lemmas and claim theorems -/

/-! ### General lemmas about the pool operations -/

theorem sortBySndHead_eq_none {l : List (String × Nat)} :
    sortBySndHead l = none ↔ l = [] := by
  have hperm := List.perm_insertionSort (fun a b : String × Nat => a.2 ≤ b.2) l
  constructor
  · intro h
    cases hs : l.insertionSort (fun a b => a.2 ≤ b.2) with
    | nil => rw [hs] at hperm; exact hperm.nil_eq.symm
    | cons a tl => simp [sortBySndHead, hs] at h
  · intro h
    subst h
    rfl

theorem sortBySndHead_mem {l : List (String × Nat)} {p : String × Nat}
    (h : sortBySndHead l = some p) : p ∈ l := by
  have hperm := List.perm_insertionSort (fun a b : String × Nat => a.2 ≤ b.2) l
  have hmem : p ∈ l.insertionSort (fun a b => a.2 ≤ b.2) := by
    cases hs : l.insertionSort (fun a b => a.2 ≤ b.2) with
    | nil => simp [sortBySndHead, hs] at h
    | cons a tl =>
      simp [sortBySndHead, hs] at h
      simp [hs, h]
  exact hperm.mem_iff.mp hmem

theorem sortBySndHead_min {l : List (String × Nat)} {p : String × Nat}
    (h : sortBySndHead l = some p) : ∀ q ∈ l, p.2 ≤ q.2 := by
  intro q hq
  haveI : IsTotal (String × Nat) (fun a b => a.2 ≤ b.2) :=
    ⟨fun a b => Nat.le_total a.2 b.2⟩
  haveI : IsTrans (String × Nat) (fun a b => a.2 ≤ b.2) :=
    ⟨fun a b c hab hbc => Nat.le_trans hab hbc⟩
  have hsort := List.sorted_insertionSort (fun a b : String × Nat => a.2 ≤ b.2) l
  have hqmem : q ∈ l.insertionSort (fun a b => a.2 ≤ b.2) :=
    (List.perm_insertionSort (fun a b : String × Nat => a.2 ≤ b.2) l).symm.mem_iff.mp hq
  cases hs : l.insertionSort (fun a b => a.2 ≤ b.2) with
  | nil => rw [hs] at hqmem; simp at hqmem
  | cons a tl =>
    simp [sortBySndHead, hs] at h
    rw [hs] at hqmem hsort
    rcases List.mem_cons.mp hqmem with hqa | hqtl
    · subst hqa; simp [h]
    · have := (List.sorted_cons.mp hsort).1 q hqtl
      simpa [h] using this

theorem mem_availableKeysMinute {l : List (String × KeyStats)} {p : String × Nat} :
    p ∈ availableKeysMinute l ↔
    ∃ s, (p.1, s) ∈ l ∧ eligibleStats s ∧ p.2 = s.requests_this_minute := by
  simp only [availableKeysMinute, List.mem_filterMap]
  constructor
  · rintro ⟨⟨k, s⟩, hmem, hf⟩
    by_cases he : eligibleStats s
    · simp only [he, if_pos] at hf
      cases hf
      exact ⟨s, hmem, he, rfl⟩
    · simp [he] at hf
  · rintro ⟨s, hmem, he, hp⟩
    refine ⟨(p.1, s), hmem, ?_⟩
    simp only [he, if_pos]
    rw [← hp]

theorem mem_availableKeysToday {l : List (String × KeyStats)} {p : String × Nat} :
    p ∈ availableKeysToday l ↔
    ∃ s, (p.1, s) ∈ l ∧ eligibleStats s ∧ p.2 = s.requests_today := by
  simp only [availableKeysToday, List.mem_filterMap]
  constructor
  · rintro ⟨⟨k, s⟩, hmem, hf⟩
    by_cases he : eligibleStats s
    · simp only [he, if_pos] at hf
      cases hf
      exact ⟨s, hmem, he, rfl⟩
    · simp [he] at hf
  · rintro ⟨s, hmem, he, hp⟩
    refine ⟨(p.1, s), hmem, ?_⟩
    simp only [he, if_pos]
    rw [← hp]

theorem availableKeysMinute_eq_nil {l : List (String × KeyStats)}
    (h : ∀ p ∈ l, ¬ eligibleStats p.2) : availableKeysMinute l = [] := by
  cases hav : availableKeysMinute l with
  | nil => rfl
  | cons a tl =>
    have : a ∈ availableKeysMinute l := by simp [hav]
    rcases mem_availableKeysMinute.mp this with ⟨s, hmem, he, _⟩
    exact absurd he (h (a.1, s) hmem)

theorem reserve_some_key {m : APIKeyManager} {d : Int} {t : Rat}
    {m' : APIKeyManager} {k : String} {w : Rat}
    (h : reserve_key_for_request m d t = some (m', (some k, w))) :
    m' = applyResets m d t ∧ w = 0 ∧
    ∃ n, sortBySndHead (availableKeysMinute (applyResets m d t).entries)
           = some (k, n) := by
  unfold reserve_key_for_request at h
  cases hs : sortBySndHead (availableKeysMinute (applyResets m d t).entries) with
  | some pick =>
    simp only [hs] at h
    cases h
    exact ⟨rfl, rfl, pick.2, by simp [hs]⟩
  | none =>
    simp only [hs] at h
    cases ht : (timesToWait (applyResets m d t).entries t).min? with
    | some tm => simp [ht] at h
    | none => simp [ht] at h

theorem reserve_none_key {m : APIKeyManager} {d : Int} {t : Rat}
    {m' : APIKeyManager} {w : Rat}
    (h : reserve_key_for_request m d t = some (m', (none, w))) :
    m' = applyResets m d t ∧
    sortBySndHead (availableKeysMinute (applyResets m d t).entries) = none ∧
    ∃ tm, (timesToWait (applyResets m d t).entries t).min? = some tm ∧
      w = max (1/2 : Rat) tm := by
  unfold reserve_key_for_request at h
  cases hs : sortBySndHead (availableKeysMinute (applyResets m d t).entries) with
  | some pick => simp [hs] at h
  | none =>
    simp only [hs] at h
    cases ht : (timesToWait (applyResets m d t).entries t).min? with
    | some tm =>
      simp only [ht] at h
      cases h
      exact ⟨rfl, rfl, tm, rfl, rfl⟩
    | none => simp [ht] at h

theorem reserve_isSome {m : APIKeyManager} {d : Int} {t : Rat}
    (h : m.entries ≠ []) :
    ∃ r, reserve_key_for_request m d t = some r := by
  cases hr : reserve_key_for_request m d t with
  | some r => exact ⟨r, rfl⟩
  | none =>
    exfalso
    have hne : (applyResets m d t).entries ≠ [] := by
      simp only [applyResets, _reset_daily_counters_if_needed]
      split <;> simpa using h
    unfold reserve_key_for_request at hr
    cases hs : sortBySndHead (availableKeysMinute (applyResets m d t).entries) with
    | some pick => simp [hs] at hr
    | none =>
      simp only [hs] at hr
      cases ht : (timesToWait (applyResets m d t).entries t).min? with
      | some tm => simp [ht] at hr
      | none =>
        cases he : (applyResets m d t).entries with
        | nil => exact hne he
        | cons a tl =>
          rw [he] at ht
          simp [timesToWait, List.min?] at ht

theorem minuteReset_requests_today (t : Rat) (s : KeyStats) :
    (_reset_minute_counter_if_needed t s).requests_today = s.requests_today := by
  unfold _reset_minute_counter_if_needed
  split <;> rfl

theorem applyResets_keyList (m : APIKeyManager) (d : Int) (t : Rat) :
    (applyResets m d t).keyList = m.keyList := by
  unfold applyResets _reset_daily_counters_if_needed APIKeyManager.keyList
  split <;> simp [List.map_map, Function.comp]

theorem applyResets_lastDaily_sameDay {m : APIKeyManager} {d : Int} (t : Rat)
    (h : ¬ m.last_daily_reset < d) :
    (applyResets m d t).last_daily_reset = m.last_daily_reset := by
  simp [applyResets, _reset_daily_counters_if_needed, h]

theorem totalRequestsToday_applyResets_sameDay {m : APIKeyManager} {d : Int}
    (t : Rat) (h : ¬ m.last_daily_reset < d) :
    totalRequestsToday (applyResets m d t) = totalRequestsToday m := by
  simp only [totalRequestsToday, applyResets, _reset_daily_counters_if_needed,
    if_neg h, List.map_map]
  congr 1
  apply List.map_congr_left
  intro p _
  simp [Function.comp, minuteReset_requests_today]

theorem recordUsageUpdate_fst (t : Rat) (key : String) (p : String × KeyStats) :
    (recordUsageUpdate t key p).1 = p.1 := by
  unfold recordUsageUpdate
  split <;> rfl

theorem record_usage_keyList (m : APIKeyManager) (t : Rat) (key : String) :
    (record_usage m t key).keyList = m.keyList := by
  simp only [record_usage, APIKeyManager.keyList, List.map_map]
  apply List.map_congr_left
  intro p _
  simp [Function.comp, recordUsageUpdate_fst]

theorem recordUsageUpdate_of_ne {t : Rat} {key : String} {p : String × KeyStats}
    (h : p.1 ≠ key) : recordUsageUpdate t key p = p := by
  simp [recordUsageUpdate, h]

theorem map_eq_self_of_eq_id {α : Type} {f : α → α} {l : List α}
    (h : ∀ a ∈ l, f a = a) : l.map f = l := by
  induction l with
  | nil => rfl
  | cons a tl ih =>
    simp only [List.map_cons, h a (by simp)]
    rw [ih (fun x hx => h x (by simp [hx]))]

theorem record_usage_of_not_mem {m : APIKeyManager} {t : Rat} {key : String}
    (h : key ∉ m.keyList) : (record_usage m t key).entries = m.entries := by
  simp only [record_usage]
  apply map_eq_self_of_eq_id
  intro p hp
  apply recordUsageUpdate_of_ne
  intro hk
  exact h (by simpa [APIKeyManager.keyList, ← hk] using List.mem_map_of_mem Prod.fst hp)

theorem recordUsageUpdate_self (t : Rat) (k : String) (s : KeyStats) :
    recordUsageUpdate t k (k, s) =
      (k, { requests_today := s.requests_today + 1,
            requests_this_minute := s.requests_this_minute + 1,
            last_used_timestamp := t,
            minute_window_start :=
              if s.minute_window_start = 0 then t else s.minute_window_start }) := by
  unfold recordUsageUpdate
  split
  · split <;> rename_i h <;> simp [h]
  · simp_all

theorem record_usage_mem {m : APIKeyManager} {t : Rat} {k : String}
    {s : KeyStats} (h : (k, s) ∈ m.entries) :
    ∃ s', (k, s') ∈ (record_usage m t k).entries ∧
      s'.requests_today = s.requests_today + 1 ∧
      s'.requests_this_minute = s.requests_this_minute + 1 ∧
      s'.last_used_timestamp = t := by
  have hm := List.mem_map_of_mem (recordUsageUpdate t k) h
  rw [recordUsageUpdate_self] at hm
  exact ⟨_, hm, rfl, rfl, rfl⟩

theorem recordUsageUpdate_requests_today (t : Rat) (key : String)
    (p : String × KeyStats) :
    (recordUsageUpdate t key p).2.requests_today =
      p.2.requests_today + (if p.1 = key then 1 else 0) := by
  unfold recordUsageUpdate
  split <;> rename_i h
  · split <;> simp [h]
  · simp [h]

theorem sumToday_recordUpdate (t : Rat) :
    ∀ (l : List (String × KeyStats)) (key : String), key ∈ l.map Prod.fst →
    (l.map Prod.fst).Nodup →
    ((l.map (recordUsageUpdate t key)).map (fun p => p.2.requests_today)).sum
      = ((l.map (fun p => p.2.requests_today)).sum) + 1 := by
  intro l
  induction l with
  | nil => simp
  | cons p tl ih =>
    intro key hmem hnd
    rw [List.map_cons, List.mem_cons] at hmem
    rw [List.map_cons, List.nodup_cons] at hnd
    by_cases hh : p.1 = key
    · have htl : key ∉ tl.map Prod.fst := hh ▸ hnd.1
      have heq : tl.map (recordUsageUpdate t key) = tl := by
        apply map_eq_self_of_eq_id
        intro q hq
        apply recordUsageUpdate_of_ne
        intro hk
        exact htl (by rw [← hk]; exact List.mem_map_of_mem Prod.fst hq)
      simp only [List.map_cons, heq, List.sum_cons,
        recordUsageUpdate_requests_today, if_pos hh]
      omega
    · have ht : key ∈ tl.map Prod.fst := by
        rcases hmem with h1 | h2
        · exact absurd h1.symm hh
        · exact h2
      simp only [List.map_cons, recordUsageUpdate_of_ne hh, List.sum_cons,
        ih key ht hnd.2]
      omega

theorem totalRequestsToday_record_usage {m : APIKeyManager} {t : Rat}
    {key : String} (hmem : key ∈ m.keyList) (hnd : m.keysNodup) :
    totalRequestsToday (record_usage m t key) = totalRequestsToday m + 1 := by
  simpa [totalRequestsToday, record_usage] using
    sumToday_recordUpdate t m.entries key hmem hnd

theorem mem_applyResets_of_mem {m : APIKeyManager} {d : Int} {t : Rat}
    {k : String} {s : KeyStats} (h : (k, s) ∈ m.entries) :
    (k, _reset_minute_counter_if_needed t
        (if m.last_daily_reset < d then { s with requests_today := 0 } else s))
      ∈ (applyResets m d t).entries := by
  unfold applyResets _reset_daily_counters_if_needed
  by_cases hd : m.last_daily_reset < d
  · simp only [if_pos hd, List.map_map]
    exact List.mem_map_of_mem _ h
  · simp only [if_neg hd]
    exact List.mem_map_of_mem _ h

theorem reserve_grant_eligible {m : APIKeyManager} {d : Int} {t : Rat}
    {m' : APIKeyManager} {k : String} {w : Rat}
    (h : reserve_key_for_request m d t = some (m', (some k, w))) :
    ∃ s, (k, s) ∈ m'.entries ∧ eligibleStats s := by
  obtain ⟨hm', _, n, hsort⟩ := reserve_some_key h
  have hmem := sortBySndHead_mem hsort
  rcases mem_availableKeysMinute.mp hmem with ⟨s, hmem', he, _⟩
  exact ⟨s, hm' ▸ hmem', he⟩

theorem get_grant_eligible {m : APIKeyManager} {d : Int} {t : Rat} {k : String}
    (h : (get_available_key m d t).2 = some k) :
    ∃ s, (k, s) ∈ (get_available_key m d t).1.entries ∧ eligibleStats s := by
  unfold get_available_key at h ⊢
  cases hs : sortBySndHead (availableKeysToday (applyResets m d t).entries) with
  | none => simp only [hs] at h; simp at h
  | some pick =>
    simp only [hs, Option.map_some] at h
    cases h
    have hmem := sortBySndHead_mem hs
    rcases mem_availableKeysToday.mp hmem with ⟨s, hmem', he, _⟩
    exact ⟨s, hmem', he⟩

theorem get_available_key_fst (m : APIKeyManager) (d : Int) (t : Rat) :
    (get_available_key m d t).1 = applyResets m d t := rfl

theorem reserve_fst {m : APIKeyManager} {d : Int} {t : Rat}
    {r : APIKeyManager × (Option String × Rat)}
    (h : reserve_key_for_request m d t = some r) :
    r.1 = applyResets m d t := by
  unfold reserve_key_for_request at h
  cases hs : sortBySndHead (availableKeysMinute (applyResets m d t).entries) with
  | some pick => simp only [hs] at h; cases h; rfl
  | none =>
    simp only [hs] at h
    cases ht : (timesToWait (applyResets m d t).entries t).min? with
    | some tm => simp only [ht] at h; cases h; rfl
    | none => simp [ht] at h

theorem evalReserve_poolAB :
    reserve_key_for_request poolAB 0 100 = some (poolAB100, (some "A", 0)) := by
  norm_num [reserve_key_for_request, applyResets, _reset_daily_counters_if_needed,
    _reset_minute_counter_if_needed, sortBySndHead, availableKeysMinute,
    eligibleStats, TWELVEDATA_DAILY_LIMIT, TWELVEDATA_MINUTE_LIMIT,
    List.insertionSort, List.orderedInsert, poolAB, poolAB100, freshKeyStats]

theorem evalGet_poolAB :
    get_available_key poolAB 0 100 = (poolAB100, some "A") := by
  norm_num [get_available_key, applyResets, _reset_daily_counters_if_needed,
    _reset_minute_counter_if_needed, sortBySndHead, availableKeysToday,
    eligibleStats, TWELVEDATA_DAILY_LIMIT, TWELVEDATA_MINUTE_LIMIT,
    List.insertionSort, List.orderedInsert, poolAB, poolAB100, freshKeyStats]

/-- C2: whenever a pool operation (`reserve_key_for_request` or
`get_available_key`) grants a credential, that credential's entry in the
pool state in force at the moment of the grant satisfies
`requests_today < dailyLimit` and `requests_this_minute < minuteLimit`;
a credential at or over either limit is never returned.  Quantifying
over every pool state covers every sequence of reserve/accounting calls. -/
theorem C2_grants_only_under_limits :
    (∀ (m : APIKeyManager) (d : Int) (t : Rat) (m' : APIKeyManager)
       (k : String) (w : Rat),
       reserve_key_for_request m d t = some (m', (some k, w)) →
       ∃ s, (k, s) ∈ m'.entries ∧ s.requests_today < TWELVEDATA_DAILY_LIMIT ∧
         s.requests_this_minute < TWELVEDATA_MINUTE_LIMIT) ∧
    (∀ (m : APIKeyManager) (d : Int) (t : Rat) (k : String),
       (get_available_key m d t).2 = some k →
       ∃ s, (k, s) ∈ (get_available_key m d t).1.entries ∧
         s.requests_today < TWELVEDATA_DAILY_LIMIT ∧
         s.requests_this_minute < TWELVEDATA_MINUTE_LIMIT) := by
  constructor
  · intro m d t m' k w h
    exact reserve_grant_eligible h
  · intro m d t k h
    exact get_grant_eligible h

/-- Witness for C2 at a concrete fresh two-key pool. -/
theorem C2_witness :
    (∃ s, ("A", s) ∈ poolAB100.entries ∧
      s.requests_today < TWELVEDATA_DAILY_LIMIT ∧
      s.requests_this_minute < TWELVEDATA_MINUTE_LIMIT) ∧
    (∃ s, ("A", s) ∈ (get_available_key poolAB 0 100).1.entries ∧
      s.requests_today < TWELVEDATA_DAILY_LIMIT ∧
      s.requests_this_minute < TWELVEDATA_MINUTE_LIMIT) :=
  ⟨C2_grants_only_under_limits.1 poolAB 0 100 poolAB100 "A" 0 evalReserve_poolAB,
   C2_grants_only_under_limits.2 poolAB 0 100 "A"
     (by rw [evalGet_poolAB])⟩

/-- C8: a credential whose minute window was never opened or has been
open for at least 60 seconds at the time `reserve_key_for_request` is
called gets its per-minute counter reset to 0 and its window restarted
at `now` before eligibility is evaluated, so it is eligible on its
per-minute quota. -/
theorem C8_stale_window_reset :
    ∀ (m : APIKeyManager) (d : Int) (t : Rat) (k : String) (s : KeyStats),
      (k, s) ∈ m.entries →
      (s.minute_window_start = 0 ∨ t - s.minute_window_start ≥ 60) →
      ∃ m' r s', reserve_key_for_request m d t = some (m', r) ∧
        (k, s') ∈ m'.entries ∧ s'.requests_this_minute = 0 ∧
        s'.minute_window_start = t ∧
        s'.requests_this_minute < TWELVEDATA_MINUTE_LIMIT := by
  intro m d t k s hmem hstale
  have hne : m.entries ≠ [] := by
    intro he
    rw [he] at hmem
    simp at hmem
  obtain ⟨r0, hr⟩ := reserve_isSome (d := d) (t := t) hne
  have hfst := reserve_fst hr
  have hmem' := mem_applyResets_of_mem (d := d) (t := t) hmem
  set sAdj := if m.last_daily_reset < d then { s with requests_today := 0 } else s with hsAdj
  have hws : sAdj.minute_window_start = s.minute_window_start := by
    rw [hsAdj]; split <;> rfl
  have hreset : _reset_minute_counter_if_needed t sAdj =
      { sAdj with requests_this_minute := 0, minute_window_start := t } := by
    unfold _reset_minute_counter_if_needed
    rw [if_pos]
    rw [hws]
    exact hstale
  refine ⟨r0.1, r0.2,
    { sAdj with requests_this_minute := 0, minute_window_start := t },
    by rw [← hr], ?_, rfl, rfl, ?_⟩
  · rw [hfst]
    rw [hreset] at hmem'
    exact hmem'
  · norm_num [TWELVEDATA_MINUTE_LIMIT]

/-- Witness for C8: a single-key pool whose window opened 61 seconds
before `now = 100`. -/
theorem C8_witness :
    ∃ m' r s', reserve_key_for_request poolStale 0 100 = some (m', r) ∧
      ("A", s') ∈ m'.entries ∧ s'.requests_this_minute = 0 ∧
      s'.minute_window_start = 100 ∧
      s'.requests_this_minute < TWELVEDATA_MINUTE_LIMIT :=
  C8_stale_window_reset poolStale 0 100 "A" ⟨0, 5, 0, 39⟩
    (by simp [poolStale]) (by norm_num)

theorem applyResets_entries_ne_nil {m : APIKeyManager} {d : Int} {t : Rat}
    (h : m.entries ≠ []) : (applyResets m d t).entries ≠ [] := by
  simp only [applyResets, _reset_daily_counters_if_needed]
  split <;> simpa using h

/-- C4: the contract of `reserve_key_for_request`.  If after the day and
window resets at least one credential is under both limits, the
operation returns a credential with the lowest `requests_this_minute`
among the eligible ones, paired with wait `0`; if none is eligible, it
returns `none` paired with the minimum over all credentials of
`60 - (now - minute_window_start)`, floored below at `1/2` second. -/
theorem C4_reserve_contract :
    ∀ (m : APIKeyManager) (d : Int) (t : Rat), m.entries ≠ [] →
      ((∃ p ∈ (applyResets m d t).entries, eligibleStats p.2) →
        ∃ k s, reserve_key_for_request m d t
            = some (applyResets m d t, (some k, 0)) ∧
          (k, s) ∈ (applyResets m d t).entries ∧ eligibleStats s ∧
          ∀ q ∈ (applyResets m d t).entries, eligibleStats q.2 →
            s.requests_this_minute ≤ q.2.requests_this_minute) ∧
      ((∀ p ∈ (applyResets m d t).entries, ¬ eligibleStats p.2) →
        ∃ w tm, reserve_key_for_request m d t
            = some (applyResets m d t, (none, w)) ∧
          tm ∈ timesToWait (applyResets m d t).entries t ∧
          (∀ x ∈ timesToWait (applyResets m d t).entries t, tm ≤ x) ∧
          w = max (1/2 : Rat) tm) := by
  intro m d t hne
  constructor
  · rintro ⟨p, hp, he⟩
    have hpav : (p.1, p.2.requests_this_minute)
        ∈ availableKeysMinute (applyResets m d t).entries :=
      mem_availableKeysMinute.mpr ⟨p.2, hp, he, rfl⟩
    cases hs : sortBySndHead (availableKeysMinute (applyResets m d t).entries) with
    | none =>
      rw [sortBySndHead_eq_none.mp hs] at hpav
      simp at hpav
    | some pick =>
      rcases mem_availableKeysMinute.mp (sortBySndHead_mem hs) with
        ⟨s, hmem, hse, hsn⟩
      refine ⟨pick.1, s, ?_, hmem, hse, ?_⟩
      · unfold reserve_key_for_request
        simp only [hs]
      · intro q hq hqe
        have hqav : (q.1, q.2.requests_this_minute)
            ∈ availableKeysMinute (applyResets m d t).entries :=
          mem_availableKeysMinute.mpr ⟨q.2, hq, hqe, rfl⟩
        have := sortBySndHead_min hs _ hqav
        rw [← hsn]
        exact this
  · intro hnone
    have hav : availableKeysMinute (applyResets m d t).entries = [] :=
      availableKeysMinute_eq_nil hnone
    have hs : sortBySndHead (availableKeysMinute (applyResets m d t).entries)
        = none := by rw [hav]; rfl
    have htne : timesToWait (applyResets m d t).entries t ≠ [] := by
      intro he
      exact applyResets_entries_ne_nil hne (by simpa [timesToWait] using he)
    cases ht : (timesToWait (applyResets m d t).entries t).min? with
    | none =>
      exfalso
      cases hts : timesToWait (applyResets m d t).entries t with
      | nil => exact htne hts
      | cons a tl => rw [hts] at ht; simp [List.min?] at ht
    | some tm =>
      refine ⟨max (1/2 : Rat) tm, tm, ?_, ?_, ?_, rfl⟩
      · unfold reserve_key_for_request
        simp only [hs, ht]
      · exact List.min?_mem (fun a b => min_choice a b) ht
      · intro x hx
        exact (List.le_min?_iff (fun a b c => le_min_iff) ht).mp le_rfl x hx

theorem evalResets_poolAB : applyResets poolAB 0 100 = poolAB100 := by
  norm_num [applyResets, _reset_daily_counters_if_needed,
    _reset_minute_counter_if_needed, poolAB, poolAB100, freshKeyStats]

theorem evalResets_poolExhausted :
    applyResets poolExhausted 0 100 = poolExhausted := by
  norm_num [applyResets, _reset_daily_counters_if_needed,
    _reset_minute_counter_if_needed, poolExhausted]

/-- Witness for C4: the eligible branch on a fresh two-key pool and the
exhausted branch on a pool whose two keys are both at the minute limit. -/
theorem C4_witness :
    (∃ k s, reserve_key_for_request poolAB 0 100
        = some (applyResets poolAB 0 100, (some k, 0)) ∧
      (k, s) ∈ (applyResets poolAB 0 100).entries ∧ eligibleStats s ∧
      ∀ q ∈ (applyResets poolAB 0 100).entries, eligibleStats q.2 →
        s.requests_this_minute ≤ q.2.requests_this_minute) ∧
    (∃ w tm, reserve_key_for_request poolExhausted 0 100
        = some (applyResets poolExhausted 0 100, (none, w)) ∧
      tm ∈ timesToWait (applyResets poolExhausted 0 100).entries 100 ∧
      (∀ x ∈ timesToWait (applyResets poolExhausted 0 100).entries 100, tm ≤ x) ∧
      w = max (1/2 : Rat) tm) :=
  ⟨(C4_reserve_contract poolAB 0 100 (by simp [poolAB])).1
      ⟨("A", ⟨0, 0, 0, 100⟩),
        by rw [evalResets_poolAB]; simp [poolAB100],
        by norm_num [eligibleStats, TWELVEDATA_DAILY_LIMIT,
          TWELVEDATA_MINUTE_LIMIT]⟩,
   (C4_reserve_contract poolExhausted 0 100 (by simp [poolExhausted])).2
      (by
        rw [evalResets_poolExhausted]
        intro p hp
        simp [poolExhausted] at hp
        rcases hp with h | h <;> subst h <;>
          norm_num [eligibleStats, TWELVEDATA_MINUTE_LIMIT])⟩

/-- C7: `is_candle_closed` holds exactly at a granularity's boundary:
always for 1-minute, iff `minute % 5 == 0` for 5-minute, iff
`minute % 15 == 0` for 15-minute, iff `minute == 0` for 1-hour, iff
`hour % 4 == 0 and minute == 0` for 4-hour, and never for any other
granularity identifier. -/
theorem C7_is_candle_closed_boundaries :
    ∀ (hour minute : Nat),
      (is_candle_closed "1min" hour minute = true) ∧
      (is_candle_closed "5min" hour minute = true ↔ minute % 5 = 0) ∧
      (is_candle_closed "15min" hour minute = true ↔ minute % 15 = 0) ∧
      (is_candle_closed "1h" hour minute = true ↔ minute = 0) ∧
      (is_candle_closed "4h" hour minute = true ↔ hour % 4 = 0 ∧ minute = 0) ∧
      (∀ tf : String, tf ∉ TIMEFRAMES → is_candle_closed tf hour minute = false) := by
  intro hour minute
  refine ⟨rfl, ?_, ?_, ?_, ?_, ?_⟩ <;>
    simp [is_candle_closed, TIMEFRAMES]
  intro tf h1 h2 h3 h4 h5
  simp [is_candle_closed, h1, h2, h3, h4, h5]

/-- Witness for C7 at hour 7, minute 30, and the unknown identifier
`"2h"`. -/
theorem C7_witness :
    (is_candle_closed "5min" 7 30 = true) ∧
    (is_candle_closed "2h" 7 30 = false) :=
  ⟨((C7_is_candle_closed_boundaries 7 30).2.1).mpr (by norm_num),
   (C7_is_candle_closed_boundaries 7 30).2.2.2.2.2 "2h" (by decide)⟩

/-- C6: `_is_confirmed_closed` is true iff `now` has reached the candle
timestamp plus the granularity's duration; with an unknown granularity
it is always false (fail closed).  In particular a 15-minute candle
timestamped 12:00:00Z (second 43200 of the day) is not confirmed closed
at 12:14:59Z and is confirmed closed at 12:15:00Z. -/
theorem C6_confirmed_closed_spec :
    (∀ (candle_ts now : Int) (tf : String),
      (_is_confirmed_closed candle_ts now tf = true ↔
        ∃ d, granularityDurationSeconds tf = some d ∧ now ≥ candle_ts + d) ∧
      (granularityDurationSeconds tf = none →
        _is_confirmed_closed candle_ts now tf = false)) ∧
    _is_confirmed_closed 43200 44099 "15min" = false ∧
    _is_confirmed_closed 43200 44100 "15min" = true := by
  refine ⟨?_, by decide, by decide⟩
  intro candle_ts now tf
  constructor
  · cases h : intervals_get tf <;>
      simp [_is_confirmed_closed, granularityDurationSeconds, h]
  · intro h
    cases h' : intervals_get tf <;>
      simp [granularityDurationSeconds, h'] at h ⊢
    simp [_is_confirmed_closed, h']

/-- Witness for C6: the known-duration direction at the 15-minute
scenario instant, and the unknown-granularity direction at `"2h"`. -/
theorem C6_witness :
    (_is_confirmed_closed 43200 44100 "15min" = true) ∧
    (_is_confirmed_closed 0 0 "2h" = false) :=
  ⟨((C6_confirmed_closed_spec.1 43200 44100 "15min").1).mpr
      ⟨900, rfl, by norm_num⟩,
   (C6_confirmed_closed_spec.1 0 0 "2h").2 rfl⟩

theorem evalReserve_poolA :
    reserve_key_for_request poolA 0 100 = some (poolA100, (some "A", 0)) := by
  norm_num [reserve_key_for_request, applyResets, _reset_daily_counters_if_needed,
    _reset_minute_counter_if_needed, sortBySndHead, availableKeysMinute,
    eligibleStats, TWELVEDATA_DAILY_LIMIT, TWELVEDATA_MINUTE_LIMIT,
    List.insertionSort, List.orderedInsert, poolA, poolA100, freshKeyStats]

/-- Counterexample to C1: on a fresh single-key pool the reservation
returns key `"A"`, but in the returned pool state `"A"` still has
`requests_today = 0`, `requests_this_minute = 0` and
`last_used_timestamp = 0` — neither counter nor timestamp reflects the
grant. -/
theorem C1_counterexample :
    reserve_key_for_request poolA 0 100
      = some (⟨[("A", ⟨0, 0, 0, 100⟩)], 0⟩, (some "A", 0)) := by
  have h := evalReserve_poolA
  rw [h]
  rfl

/-- C1 amended: `reserve_key_for_request` picks the credential under the
lock but performs no accounting — the returned state differs from the
input state only by the day/window resets, and counters and `last_used`
are updated only by the separate `record_usage` call, which increments
both counters by one and stamps `last_used_timestamp`. -/
theorem C1_amended_reserve_defers_accounting :
    (∀ (m : APIKeyManager) (d : Int) (t : Rat) (m' : APIKeyManager)
       (k : String) (w : Rat),
       reserve_key_for_request m d t = some (m', (some k, w)) →
       m' = applyResets m d t ∧ w = 0) ∧
    (∀ (m : APIKeyManager) (t : Rat) (k : String) (s : KeyStats),
       (k, s) ∈ m.entries →
       ∃ s', (k, s') ∈ (record_usage m t k).entries ∧
         s'.requests_today = s.requests_today + 1 ∧
         s'.requests_this_minute = s.requests_this_minute + 1 ∧
         s'.last_used_timestamp = t) := by
  constructor
  · intro m d t m' k w h
    obtain ⟨h1, h2, _⟩ := reserve_some_key h
    exact ⟨h1, h2⟩
  · intro m t k s h
    exact record_usage_mem h

/-- Witness for the amended C1 on the concrete single-key pool. -/
theorem C1_witness :
    (poolA100 = applyResets poolA 0 100 ∧ (0 : Rat) = 0) ∧
    ∃ s', ("A", s') ∈ (record_usage poolA100 100 "A").entries ∧
      s'.requests_today = 0 + 1 ∧ s'.requests_this_minute = 0 + 1 ∧
      s'.last_used_timestamp = 100 :=
  ⟨C1_amended_reserve_defers_accounting.1 poolA 0 100 poolA100 "A" 0
      evalReserve_poolA,
   C1_amended_reserve_defers_accounting.2 poolA100 100 "A" ⟨0, 0, 0, 100⟩
      (by simp [poolA100])⟩

theorem evalReserve_poolAB100 :
    reserve_key_for_request poolAB100 0 100 = some (poolAB100, (some "A", 0)) := by
  norm_num [reserve_key_for_request, applyResets, _reset_daily_counters_if_needed,
    _reset_minute_counter_if_needed, sortBySndHead, availableKeysMinute,
    eligibleStats, TWELVEDATA_DAILY_LIMIT, TWELVEDATA_MINUTE_LIMIT,
    List.insertionSort, List.orderedInsert, poolAB100]

theorem reserveRun_poolAB100 (n : Nat) :
    reserveRun 0 100 n poolAB100
      = some (List.replicate n (some "A"), poolAB100) := by
  induction n with
  | zero => rfl
  | succ k ih =>
    simp only [reserveRun, evalReserve_poolAB100, ih, List.replicate_succ]

/-- Counterexample to C3: on the fresh two-key pool with
`dailyLimit = 800` and `minuteLimit = 8`, nine consecutive reservations
inside one minute window (no usage recorded in between, since
reservation itself claims to do the accounting) all return credential
`"A"` — in particular the first eight all return `"A"` and the 9th
returns `"A"`, not `"B"`. -/
theorem C3_counterexample :
    reserveRun 0 100 9 poolAB
      = some (List.replicate 9 (some "A"), poolAB100) ∧
    (some "A" : Option String) ≠ some "B" := by
  constructor
  · show reserveRun 0 100 (8 + 1) poolAB = _
    simp only [reserveRun, evalReserve_poolAB, evalReserve_poolAB100,
      List.replicate_succ, List.replicate]
  · simp

theorem record_poolABused (k : Nat) :
    record_usage (poolABused k) 100 "A" = poolABused (k + 1) := by
  norm_num [record_usage, recordUsageUpdate, poolABused]
  decide

theorem evalRecord_poolAB100 :
    record_usage poolAB100 100 "A" = poolABused 1 := by
  norm_num [record_usage, recordUsageUpdate, poolAB100, poolABused]
  decide

theorem iterateRecord_poolABused :
    ∀ (n k : Nat),
      (fun mm => record_usage mm 100 "A")^[n] (poolABused k)
        = poolABused (k + n) := by
  intro n
  induction n with
  | zero => intro k; simp
  | succ j ih =>
    intro k
    rw [Function.iterate_succ_apply]
    simp only [record_poolABused, ih]
    congr 1
    omega

theorem evalReserve_poolABused8 :
    reserve_key_for_request (poolABused 8) 0 100
      = some (poolABused 8, (some "B", 0)) := by
  norm_num [reserve_key_for_request, applyResets, _reset_daily_counters_if_needed,
    _reset_minute_counter_if_needed, sortBySndHead, availableKeysMinute,
    eligibleStats, TWELVEDATA_DAILY_LIMIT, TWELVEDATA_MINUTE_LIMIT,
    List.insertionSort, List.orderedInsert, poolABused]

/-- C3 amended: reservations by themselves consume no quota (see the
counterexample), so exhausting `"A"` for the window takes eight recorded
usages, not eight reservations.  Starting from the fresh two-key pool
whose windows opened at 100: recording eight usages of `"A"` inside the
window yields the state `poolABused 8` (`"A"` at the minute limit 8,
`"B"` unused), and the next reservation then returns credential `"B"`
(not `none`), with zero wait. -/
theorem C3_amended_ninth_returns_B :
    (fun mm => record_usage mm 100 "A")^[8] poolAB100 = poolABused 8 ∧
    reserve_key_for_request (poolABused 8) 0 100
      = some (poolABused 8, (some "B", 0)) := by
  constructor
  · show (fun mm => record_usage mm 100 "A")^[7+1] poolAB100 = _
    rw [Function.iterate_succ_apply]
    simp only [evalRecord_poolAB100, iterateRecord_poolABused]
  · exact evalReserve_poolABused8

theorem applyResets_keysNodup {m : APIKeyManager} {d : Int} {t : Rat}
    (h : m.keysNodup) : (applyResets m d t).keysNodup := by
  unfold APIKeyManager.keysNodup at h ⊢
  rw [applyResets_keyList]
  exact h

theorem record_usage_keysNodup {m : APIKeyManager} {t : Rat} {k : String}
    (h : m.keysNodup) : (record_usage m t k).keysNodup := by
  unfold APIKeyManager.keysNodup at h ⊢
  rw [record_usage_keyList]
  exact h

theorem record_usage_lastDaily (m : APIKeyManager) (t : Rat) (k : String) :
    (record_usage m t k).last_daily_reset = m.last_daily_reset := rfl

theorem reserve_grant_mem_keyList {m : APIKeyManager} {d : Int} {t : Rat}
    {m' : APIKeyManager} {k : String} {w : Rat}
    (h : reserve_key_for_request m d t = some (m', (some k, w))) :
    k ∈ m'.keyList := by
  obtain ⟨s, hs, _⟩ := reserve_grant_eligible h
  exact List.mem_map_of_mem Prod.fst hs

theorem get_grant_mem_keyList {m : APIKeyManager} {d : Int} {t : Rat}
    {k : String} (h : (get_available_key m d t).2 = some k) :
    k ∈ (applyResets m d t).keyList := by
  obtain ⟨s, hs, _⟩ := get_grant_eligible h
  rw [get_available_key_fst] at hs
  exact List.mem_map_of_mem Prod.fst hs

theorem fetch_candles_pool_of_success {m : APIKeyManager} {d : Int} {t : Rat}
    {ndt : Int} {tf : String} {os : Nat} {resp : Option (List Candle)}
    (h : (fetch_candles m d t ndt tf os resp).2.isSome = true) :
    ∃ fk, (get_available_key m d t).2 = some fk ∧
      (fetch_candles m d t ndt tf os resp).1
        = record_usage (applyResets m d t) t fk := by
  unfold fetch_candles at h ⊢
  rcases hg : get_available_key m d t with ⟨m1, ko⟩
  have hm1 : m1 = applyResets m d t := by
    have := get_available_key_fst m d t
    rw [hg] at this
    exact this
  cases ko with
  | none => rw [hg] at h; simp at h
  | some fk =>
    rw [hg] at h
    cases resp with
    | none => simp at h
    | some values =>
      simp only at h ⊢
      split at h
      · simp at h
      · rename_i hcne
        refine ⟨fk, rfl, ?_⟩
        rw [if_neg hcne, hm1]

theorem totalToday_after_fetch_and_record {m1 : APIKeyManager} {d : Int}
    {t : Rat} {ndt : Int} {tf : String} {os : Nat}
    {resp : Option (List Candle)} {rk : String}
    (hnd : m1.keysNodup) (hday : ¬ m1.last_daily_reset < d)
    (hrk : rk ∈ m1.keyList)
    (hsucc : (fetch_candles m1 d t ndt tf os resp).2.isSome = true) :
    totalRequestsToday
        (record_usage (fetch_candles m1 d t ndt tf os resp).1 t rk)
      = totalRequestsToday m1 + 2 := by
  obtain ⟨fk, hfk, hpool⟩ := fetch_candles_pool_of_success hsucc
  rw [hpool]
  have hndR : (applyResets m1 d t).keysNodup := applyResets_keysNodup hnd
  have hfkmem : fk ∈ (applyResets m1 d t).keyList := get_grant_mem_keyList hfk
  have h1 : totalRequestsToday (record_usage (applyResets m1 d t) t fk)
      = totalRequestsToday (applyResets m1 d t) + 1 :=
    totalRequestsToday_record_usage hfkmem hndR
  have h2 : totalRequestsToday (applyResets m1 d t) = totalRequestsToday m1 :=
    totalRequestsToday_applyResets_sameDay t hday
  have hrk' : rk ∈ (record_usage (applyResets m1 d t) t fk).keyList := by
    rw [record_usage_keyList, applyResets_keyList]
    exact hrk
  have hnd' : (record_usage (applyResets m1 d t) t fk).keysNodup :=
    record_usage_keysNodup hndR
  rw [totalRequestsToday_record_usage hrk' hnd', h1, h2]

theorem live_tf_step_fetched {m : APIKeyManager} {d : Int} {t : Rat}
    {ndt : Int} {tf : String} {resp : Option (List Candle)}
    {m' : APIKeyManager} {k : String} {b : Bool}
    (h : live_tf_step m d t ndt tf resp
          = some (m', SchedEvent.fetched tf k b)) :
    ∃ m1 w, reserve_key_for_request m d t = some (m1, (some k, w)) ∧
      m' = record_usage (fetch_candles m1 d t ndt tf 1 resp).1 t k ∧
      b = (fetch_candles m1 d t ndt tf 1 resp).2.isSome := by
  unfold live_tf_step at h
  cases hr : reserve_key_for_request m d t with
  | none => rw [hr] at h; simp at h
  | some r =>
    rcases r with ⟨m1, ko, w⟩
    rw [hr] at h
    cases ko with
    | none => simp [SchedEvent.skip] at h
    | some key =>
      simp only [Option.some.injEq, Prod.mk.injEq,
        SchedEvent.fetched.injEq] at h
      obtain ⟨h1, _, h2, h3⟩ := h
      subst h2
      exact ⟨m1, w, rfl, h1.symm, h3.symm⟩

theorem bootstrap_attempt_done {m : APIKeyManager} {d : Int} {t : Rat}
    {ndt : Int} {tf : String} {resp : Option (List Candle)}
    {m' : APIKeyManager} {cs : List Candle}
    (h : bootstrap_attempt m d t ndt tf resp
          = some (BootstrapOutcome.done m' cs)) :
    ∃ m1 w k, reserve_key_for_request m d t = some (m1, (some k, w)) ∧
      m' = record_usage
        (fetch_candles m1 d t ndt tf (ROLLING_LIMITS_get tf) resp).1 t k ∧
      (fetch_candles m1 d t ndt tf (ROLLING_LIMITS_get tf) resp).2
        = some cs := by
  unfold bootstrap_attempt at h
  cases hr : reserve_key_for_request m d t with
  | none => rw [hr] at h; simp at h
  | some r =>
    rcases r with ⟨m1, ko, w⟩
    rw [hr] at h
    cases ko with
    | none => simp at h
    | some key =>
      simp only at h
      cases hf : (fetch_candles m1 d t ndt tf (ROLLING_LIMITS_get tf) resp).2 with
      | none => rw [hf] at h; simp at h
      | some cs' =>
        rw [hf] at h
        simp only [Option.some.injEq, BootstrapOutcome.done.injEq] at h
        obtain ⟨h1, h2⟩ := h
        subst h2
        exact ⟨m1, w, key, rfl, h1.symm, hf⟩

theorem evalReserve_poolDiff :
    reserve_key_for_request poolDiff 0 100 = some (poolDiff, (some "A", 0)) := by
  norm_num [reserve_key_for_request, applyResets, _reset_daily_counters_if_needed,
    _reset_minute_counter_if_needed, sortBySndHead, availableKeysMinute,
    eligibleStats, TWELVEDATA_DAILY_LIMIT, TWELVEDATA_MINUTE_LIMIT,
    List.insertionSort, List.orderedInsert, poolDiff]

theorem evalGet_poolDiff :
    (get_available_key poolDiff 0 100).2 = some "B" := by
  norm_num [get_available_key, applyResets, _reset_daily_counters_if_needed,
    _reset_minute_counter_if_needed, sortBySndHead, availableKeysToday,
    eligibleStats, TWELVEDATA_DAILY_LIMIT, TWELVEDATA_MINUTE_LIMIT,
    List.insertionSort, List.orderedInsert, poolDiff]

/-- C5: in both the live per-pair loop body and the bootstrap loop body,
the HTTP request inside `fetch_candles` uses a credential obtained by a
second, independent `get_available_key` call (which can pick a different
key from the reserved one, as the concrete pool `poolDiff` shows), and a
successful fetch records usage twice — once inside `fetch_candles` and
once by the scheduler on the reserved key — so one successful outbound
request increases the pool's total recorded daily usage by exactly 2. -/
theorem C5_successful_fetch_records_twice :
    (∀ (m : APIKeyManager) (d : Int) (t : Rat) (ndt : Int) (tf : String)
       (resp : Option (List Candle)) (m' : APIKeyManager) (k : String),
       m.keysNodup → ¬ m.last_daily_reset < d →
       live_tf_step m d t ndt tf resp
          = some (m', SchedEvent.fetched tf k true) →
       totalRequestsToday m' = totalRequestsToday m + 2) ∧
    (∀ (m : APIKeyManager) (d : Int) (t : Rat) (ndt : Int) (tf : String)
       (resp : Option (List Candle)) (m' : APIKeyManager) (cs : List Candle),
       m.keysNodup → ¬ m.last_daily_reset < d →
       bootstrap_attempt m d t ndt tf resp
          = some (BootstrapOutcome.done m' cs) →
       totalRequestsToday m' = totalRequestsToday m + 2) ∧
    (reserve_key_for_request poolDiff 0 100
        = some (poolDiff, (some "A", 0)) ∧
     (get_available_key poolDiff 0 100).2 = some "B" ∧ "A" ≠ "B") := by
  refine ⟨?_, ?_, evalReserve_poolDiff, evalGet_poolDiff, by simp⟩
  · intro m d t ndt tf resp m' k hnd hday h
    obtain ⟨m1, w, hr, hm', hb⟩ := live_tf_step_fetched h
    have hm1 : m1 = applyResets m d t := (reserve_some_key hr).1
    have hrk : k ∈ m1.keyList := reserve_grant_mem_keyList hr
    have hnd1 : m1.keysNodup := hm1 ▸ applyResets_keysNodup hnd
    have hday1 : ¬ m1.last_daily_reset < d := by
      rw [hm1, applyResets_lastDaily_sameDay t hday]
      exact hday
    have htot1 : totalRequestsToday m1 = totalRequestsToday m :=
      hm1 ▸ totalRequestsToday_applyResets_sameDay t hday
    rw [hm', totalToday_after_fetch_and_record hnd1 hday1 hrk hb.symm, htot1]
  · intro m d t ndt tf resp m' cs hnd hday h
    obtain ⟨m1, w, k, hr, hm', hf⟩ := bootstrap_attempt_done h
    have hm1 : m1 = applyResets m d t := (reserve_some_key hr).1
    have hrk : k ∈ m1.keyList := reserve_grant_mem_keyList hr
    have hnd1 : m1.keysNodup := hm1 ▸ applyResets_keysNodup hnd
    have hday1 : ¬ m1.last_daily_reset < d := by
      rw [hm1, applyResets_lastDaily_sameDay t hday]
      exact hday
    have htot1 : totalRequestsToday m1 = totalRequestsToday m :=
      hm1 ▸ totalRequestsToday_applyResets_sameDay t hday
    have hsucc :
        (fetch_candles m1 d t ndt tf (ROLLING_LIMITS_get tf) resp).2.isSome
          = true := by rw [hf]; rfl
    rw [hm', totalToday_after_fetch_and_record hnd1 hday1 hrk hsucc, htot1]

theorem string_BA_false : (("B" : String) = "A") = False :=
  eq_false (by decide)

theorem string_AB_false : (("A" : String) = "B") = False :=
  eq_false (by decide)

theorem evalLive_poolAB :
    live_tf_step poolAB 0 100 60 "1min" (some [c0])
      = some (poolABused 2, SchedEvent.fetched "1min" "A" true) := by
  norm_num [live_tf_step, evalReserve_poolAB, fetch_candles, get_available_key,
    applyResets, _reset_daily_counters_if_needed, _reset_minute_counter_if_needed,
    sortBySndHead, availableKeysToday, eligibleStats, TWELVEDATA_DAILY_LIMIT,
    TWELVEDATA_MINUTE_LIMIT, List.insertionSort, List.orderedInsert,
    _is_confirmed_closed, intervals_get, record_usage, recordUsageUpdate,
    poolAB100, poolABused, c0, string_BA_false, string_AB_false]

/-- Witness for C5 on a fresh two-key pool: one live-loop iteration with
a successful one-candle response leaves total recorded usage at 2. -/
theorem C5_witness :
    totalRequestsToday (poolABused 2) = totalRequestsToday poolAB + 2 :=
  C5_successful_fetch_records_twice.1 poolAB 0 100 60 "1min" (some [c0])
    (poolABused 2) "A"
    (by simp [APIKeyManager.keysNodup, APIKeyManager.keyList, poolAB])
    (by norm_num [poolAB]) evalLive_poolAB

theorem live_tf_step_event {m : APIKeyManager} {d : Int} {t : Rat} {ndt : Int}
    {tf : String} {resp : Option (List Candle)} {m1 : APIKeyManager}
    {ev : SchedEvent}
    (h : live_tf_step m d t ndt tf resp = some (m1, ev)) :
    ev.timeframeOf = some tf ∧ ¬ ev.isSleep := by
  unfold live_tf_step at h
  cases hr : reserve_key_for_request m d t with
  | none => rw [hr] at h; simp at h
  | some r =>
    rcases r with ⟨m1', ko, w⟩
    rw [hr] at h
    cases ko with
    | none =>
      simp only [Option.some.injEq, Prod.mk.injEq] at h
      rw [← h.2]
      exact ⟨rfl, by simp [SchedEvent.isSleep]⟩
    | some key =>
      simp only [Option.some.injEq, Prod.mk.injEq] at h
      rw [← h.2]
      exact ⟨rfl, by simp [SchedEvent.isSleep]⟩

theorem fetch_pair_loop_events :
    ∀ (l : List String) (m : APIKeyManager) (d : Int) (t : Rat) (ndt : Int)
      (resp : String → Option (List Candle)) (m' : APIKeyManager)
      (evs : List SchedEvent),
      fetch_pair_loop d t ndt resp l m = some (m', evs) →
      evs.map SchedEvent.timeframeOf = l.map some ∧
      ∀ e ∈ evs, ¬ e.isSleep := by
  intro l
  induction l with
  | nil =>
    intro m d t ndt resp m' evs h
    simp only [fetch_pair_loop, Option.some.injEq, Prod.mk.injEq] at h
    rw [← h.2]
    simp
  | cons tf rest ih =>
    intro m d t ndt resp m' evs h
    unfold fetch_pair_loop at h
    cases hstep : live_tf_step m d t ndt tf (resp tf) with
    | none => rw [hstep] at h; simp at h
    | some r =>
      rcases r with ⟨m1, ev⟩
      rw [hstep] at h
      dsimp only at h
      cases hloop : fetch_pair_loop d t ndt resp rest m1 with
      | none => rw [hloop] at h; simp at h
      | some r2 =>
        rcases r2 with ⟨m2, evs2⟩
        rw [hloop] at h
        simp only [Option.some.injEq, Prod.mk.injEq] at h
        obtain ⟨hev, hsl⟩ := live_tf_step_event hstep
        obtain ⟨ihm, ihsl⟩ := ih m1 d t ndt resp m2 evs2 hloop
        rw [← h.2]
        constructor
        · simp [hev, ihm]
        · intro e he
          rcases List.mem_cons.mp he with h1 | h2
          · rw [h1]; exact hsl
          · exact ihsl e h2

/-- C9: in live mode the per-instrument fetch loop never waits on
credential scarcity: the loop over the priority-sorted due granularities
produces exactly one non-sleep event per granularity, in order (a
reservation failure produces a skip and the loop proceeds to the next
granularity); and when `reserve_key_for_request` yields no credential,
the loop body is exactly a skip — the returned wait time is discarded
and no sleep is performed. -/
theorem C9_live_skips_on_scarcity :
    (∀ (m : APIKeyManager) (d : Int) (t : Rat) (ndt : Int)
       (tfs : List String) (resp : String → Option (List Candle))
       (m' : APIKeyManager) (evs : List SchedEvent),
       fetch_pair_at_offset m d t ndt tfs resp = some (m', evs) →
       evs.map SchedEvent.timeframeOf = (sortByPriority tfs).map some ∧
       ∀ e ∈ evs, ¬ e.isSleep) ∧
    (∀ (m : APIKeyManager) (d : Int) (t : Rat) (ndt : Int) (tf : String)
       (resp : Option (List Candle)) (m1 : APIKeyManager) (w : Rat),
       reserve_key_for_request m d t = some (m1, (none, w)) →
       live_tf_step m d t ndt tf resp = some (m1, SchedEvent.skip tf)) := by
  constructor
  · intro m d t ndt tfs resp m' evs h
    exact fetch_pair_loop_events (sortByPriority tfs) m d t ndt resp m' evs h
  · intro m d t ndt tf resp m1 w h
    unfold live_tf_step
    rw [h]

theorem evalReserve_poolExhausted :
    reserve_key_for_request poolExhausted 0 100
      = some (poolExhausted, (none, 60)) := by
  norm_num [reserve_key_for_request, applyResets, _reset_daily_counters_if_needed,
    _reset_minute_counter_if_needed, sortBySndHead, availableKeysMinute,
    eligibleStats, TWELVEDATA_DAILY_LIMIT, TWELVEDATA_MINUTE_LIMIT,
    List.insertionSort, List.orderedInsert, timesToWait, List.min?,
    poolExhausted]

theorem evalFetchPair_poolAB :
    fetch_pair_at_offset poolAB 0 100 60 ["1min"] (fun _ => some [c0])
      = some (poolABused 2, [SchedEvent.fetched "1min" "A" true]) := by
  simp [fetch_pair_at_offset, sortByPriority, List.insertionSort,
    fetch_pair_loop, evalLive_poolAB]

/-- Witness for C9: a one-granularity live loop with a successful fetch,
and a skip step on an exhausted pool. -/
theorem C9_witness :
    ([SchedEvent.fetched "1min" "A" true].map SchedEvent.timeframeOf
        = (sortByPriority ["1min"]).map some) ∧
    live_tf_step poolExhausted 0 100 60 "1min" (some [c0])
      = some (poolExhausted, SchedEvent.skip "1min") :=
  ⟨(C9_live_skips_on_scarcity.1 poolAB 0 100 60 ["1min"] (fun _ => some [c0])
      (poolABused 2) [SchedEvent.fetched "1min" "A" true]
      evalFetchPair_poolAB).1,
   C9_live_skips_on_scarcity.2 poolExhausted 0 100 60 "1min" (some [c0])
      poolExhausted 60 evalReserve_poolExhausted⟩

theorem ROLLING_LIMITS_get_pos (tf : String) : 1 ≤ ROLLING_LIMITS_get tf := by
  unfold ROLLING_LIMITS_get
  split_ifs <;> norm_num

theorem addSingle_of_mem {maxlen : Nat} {q : List Candle} {c : Candle}
    (h : c.datetime ∈ q.map (fun x => x.datetime)) :
    addSingleToStream maxlen q c = q := by
  simp only [addSingleToStream]
  rw [if_pos h]

theorem addSingle_mem_self {maxlen : Nat} (h1 : 1 ≤ maxlen)
    (q : List Candle) (c : Candle) :
    c.datetime ∈ (addSingleToStream maxlen q c).map (fun x => x.datetime) := by
  by_cases hm : c.datetime ∈ q.map (fun x => x.datetime)
  · rw [addSingle_of_mem hm]
    exact hm
  · simp only [addSingleToStream]
    rw [if_neg hm]
    unfold dequeAppend
    have hk : q.length + 1 - maxlen ≤ q.length := by omega
    rw [List.drop_append_of_le_length hk]
    simp

theorem count_addSingle {maxlen : Nat} (h1 : 1 ≤ maxlen)
    {q : List Candle} {c : Candle}
    (hq : (q.map (fun x => x.datetime)).count c.datetime ≤ 1) :
    ((addSingleToStream maxlen q c).map (fun x => x.datetime)).count c.datetime
      = 1 := by
  by_cases hm : c.datetime ∈ q.map (fun x => x.datetime)
  · rw [addSingle_of_mem hm]
    have := List.count_pos_iff.mpr hm
    omega
  · have h0 : (q.map (fun x => x.datetime)).count c.datetime = 0 :=
      List.count_eq_zero.mpr hm
    simp only [addSingleToStream]
    rw [if_neg hm]
    unfold dequeAppend
    have hk : q.length + 1 - maxlen ≤ q.length := by omega
    rw [List.drop_append_of_le_length hk, List.map_append, List.count_append]
    have hsub : ((q.drop (q.length + 1 - maxlen)).map
        (fun x => x.datetime)).count c.datetime
        ≤ (q.map (fun x => x.datetime)).count c.datetime :=
      List.Sublist.count_le
        ((List.drop_sublist (q.length + 1 - maxlen) q).map (fun x => x.datetime))
        c.datetime
    simp only [List.map_cons, List.map_nil, List.count_singleton]
    simp only [beq_self_eq_true, if_pos]
    omega

theorem addSingle_idem {maxlen : Nat} (h1 : 1 ≤ maxlen)
    (q : List Candle) (c : Candle) :
    addSingleToStream maxlen (addSingleToStream maxlen q c) c
      = addSingleToStream maxlen q c :=
  addSingle_of_mem (addSingle_mem_self h1 q c)

/-- C10: the rolling store's single-candle append deduplicates by
timestamp and is idempotent: for a configured (pair, timeframe) whose
streams hold at most one candle per timestamp, appending the same
timestamped candle twice leaves the stream with exactly one candle
carrying that timestamp, and the second append leaves the whole store
unchanged. -/
theorem C10_add_single_candle_idempotent :
    ∀ (st : DataStorage) (pair tf : String) (c : Candle) (q : List Candle),
      ((pair, tf), q) ∈ st.data →
      (∀ q', ((pair, tf), q') ∈ st.data →
        (q'.map (fun x => x.datetime)).count c.datetime ≤ 1) →
      (∀ q', ((pair, tf), q')
          ∈ ((st.add_single_candle pair tf c).add_single_candle pair tf c).data →
        (q'.map (fun x => x.datetime)).count c.datetime = 1) ∧
      (st.add_single_candle pair tf c).add_single_candle pair tf c
        = st.add_single_candle pair tf c := by
  intro st pair tf c q hq hcount
  have hpos := ROLLING_LIMITS_get_pos tf
  constructor
  · intro q' hq'
    simp only [DataStorage.add_single_candle, List.map_map] at hq'
    rcases List.mem_map.mp hq' with ⟨e, he, hfe⟩
    by_cases hkey : e.1 = (pair, tf)
    · simp only [Function.comp, if_pos hkey] at hfe
      have hq'' : q' = addSingleToStream (ROLLING_LIMITS_get tf)
          (addSingleToStream (ROLLING_LIMITS_get tf) e.2 c) c :=
        ((Prod.mk.injEq _ _ _ _).mp hfe).2.symm
      have hcnt : (e.2.map (fun x => x.datetime)).count c.datetime ≤ 1 := by
        apply hcount e.2
        rw [← hkey]
        exact he
      rw [hq'', addSingle_idem hpos]
      exact count_addSingle hpos hcnt
    · simp only [Function.comp, if_neg hkey] at hfe
      exact absurd (congrArg Prod.fst hfe) hkey
  · simp only [DataStorage.add_single_candle, List.map_map]
    congr 1
    apply List.map_congr_left
    intro e he
    by_cases hkey : e.1 = (pair, tf)
    · simp only [Function.comp, if_pos hkey]
      rw [addSingle_idem hpos]
    · simp only [Function.comp, if_neg hkey]

/-- Witness for C10 on a concrete one-stream store and candle: after
the double append the stream is `[c0]`, which carries the timestamp
exactly once, and the second append changed nothing. -/
theorem C10_witness :
    (([c0].map (fun x => x.datetime)).count c0.datetime = 1) ∧
    (storeE.add_single_candle "EURUSD" "1min" c0).add_single_candle
        "EURUSD" "1min" c0
      = storeE.add_single_candle "EURUSD" "1min" c0 :=
  ⟨(C10_add_single_candle_idempotent storeE "EURUSD" "1min" c0 []
      (by simp [storeE])
      (by intro q' hq'; simp [storeE] at hq'; simp [hq'])).1 [c0]
      (by decide),
   (C10_add_single_candle_idempotent storeE "EURUSD" "1min" c0 []
      (by simp [storeE])
      (by intro q' hq'; simp [storeE] at hq'; simp [hq'])).2⟩
